import Mathlib

/- Verification development for the BPM estimation backend
   (src/backend/main.py of the wedazer/BPM repository).

   The Python functions are shallowly embedded as Lean functions.  Outcomes
   of the external collaborators (HTTP client, yt-dlp, ffmpeg, librosa) are
   supplied as explicit environment records: each field records what the
   collaborator would do for the request under consideration, and the
   embedded code mirrors, branch for branch, how main.py reacts to those
   outcomes.  Character classes of the classifier regex are modelled over
   ASCII.  Floating point values are modelled by rationals. -/

/-! ## Basic data -/

abbrev Bytes := List Nat

/-- The fixed user-facing failure string of the URL handler
    ("Impossible d'extraire l'audio depuis ce lien."). -/
def E_link : String := "Impossible d\x27extraire l\x27audio depuis ce lien."

/-- The fixed user-facing failure string of the upload handler
    ("Impossible d'extraire l'audio depuis ce fichier."). -/
def E_file : String := "Impossible d\x27extraire l\x27audio depuis ce fichier."

/-- The fixed no-audio failure string ("Cette vidéo ne contient pas d'audio."). -/
def E_noaudio : String := "Cette vidéo ne contient pas d\x27audio."

/-- The fixed no-clear-tempo failure string. -/
def E_tempo : String := "Impossible de détecter un tempo clair."

/-- The fixed transcoder-needed detail string. -/
def D_ffmpeg : String := "FFmpeg requis pour conversion."

/-- Error text produced by `_ensure_wav` when the transcoder is absent. -/
def E_noffmpeg : String := "FFmpeg non installé."

/-- Error text produced by `_download_with_ytdlp` when no file was produced. -/
def E_noytfile : String := "Aucun fichier audio téléchargé."

/-- Model of the text of the TypeError raised by `Path(None)` in the upload
    handler when the client sends no filename (exact CPython wording is
    irrelevant to every claim; only the fact that it is raw diagnostic text
    matters). -/
def pathTypeErrorMsg : String :=
  "TypeError: argument should be a str or an os.PathLike object, not NoneType"

/-! ## Source classifier (`DIRECT_MEDIA_EXT`, `_is_direct_media`) -/

/-- `DIRECT_MEDIA_EXT` from main.py. -/
def DIRECT_MEDIA_EXT : List String :=
  [".mp4", ".mov", ".wav", ".mp3", ".aac", ".flac", ".m4a", ".ogg", ".webm", ".mkv", ".avi"]

/-- ASCII model of the character class `[a-z0-9]` under `re.IGNORECASE`. -/
def isWordChar (c : Char) : Bool :=
  (('a' ≤ c) && (c ≤ 'z')) || (('A' ≤ c) && (c ≤ 'Z')) || (('0' ≤ c) && (c ≤ '9'))

/-- ASCII lower-casing of one character (model of `str.lower` on the match). -/
def toLowerChar (c : Char) : Char :=
  if ('A' ≤ c) && (c ≤ 'Z') then Char.ofNat (c.toNat + 32) else c

/-- The terminator `(?:\?|#|$)` of the classifier regex: the remainder of the
    string is empty, or begins with a query or fragment delimiter. -/
def isTermL : List Char → Bool
  | [] => true
  | c :: _ => (c == '?') || (c == '#')

/-- At a candidate position (just after a literal dot), try a token of
    exactly `k` word characters followed by the terminator. -/
def checkTok (rest : List Char) (k : Nat) : Bool :=
  ((rest.take k).length == k) && (rest.take k).all isWordChar && isTermL (rest.drop k)

/-- Attempt of the regex `(\.[a-z0-9]{2,4})(?:\?|#|$)` at the head of the
    list; greedy, so 4 characters are preferred over 3 over 2 (at a fixed
    position at most one length can match, see `checkTok`). -/
def matchExtAt : List Char → Option (List Char)
  | [] => none
  | c :: rest =>
    if c == '.' then
      if checkTok rest 4 then some ('.' :: rest.take 4)
      else if checkTok rest 3 then some ('.' :: rest.take 3)
      else if checkTok rest 2 then some ('.' :: rest.take 2)
      else none
    else none

/-- `re.search` semantics: the match at the leftmost position where the
    pattern matches. -/
def searchExt : List Char → Option (List Char)
  | [] => none
  | c :: rest =>
    match matchExtAt (c :: rest) with
    | some t => some t
    | none => searchExt rest

def lowerString (t : List Char) : String := String.mk (t.map toLowerChar)

/-- `_is_direct_media` from main.py: search for the extension pattern, and
    test the lower-cased matched group against `DIRECT_MEDIA_EXT`. -/
def is_direct_media (url : String) : Bool :=
  match searchExt url.data with
  | some t => DIRECT_MEDIA_EXT.contains (lowerString t)
  | none => false

/-! ### Classifier as worded by the spec (for the refinement claim C3) -/

/-- Not a query or fragment delimiter. -/
def notQF (c : Char) : Bool := !((c == '?') || (c == '#'))

/-- The part of the URL before the (first) query string or fragment. -/
def stripQF (s : List Char) : List Char := s.takeWhile notQF

/-- Does `s` end in a dot followed by exactly `k` word characters?  If so,
    return that trailing token (dot included). -/
def endsWithTok (s : List Char) (k : Nat) : Option (List Char) :=
  let r := s.reverse
  if ((r.take k).length == k) && (r.take k).all isWordChar &&
      (match r.drop k with | '.' :: _ => true | _ => false) then
    some ('.' :: (r.take k).reverse)
  else none

/-- The trailing file-extension-like token of `s` (a dot followed by 2–4
    word characters at the very end), if any. -/
def specTrailingTok (s : List Char) : Option (List Char) :=
  match endsWithTok s 4 with
  | some t => some t
  | none =>
    match endsWithTok s 3 with
    | some t => some t
    | none => endsWithTok s 2

/-- Modelled from the spec (§4.1): extract the trailing file-extension-like
    token of the URL ignoring the query string and fragment, and classify as
    DirectMedia exactly when that token is a known direct-media extension. -/
def classify_spec (url : String) : Bool :=
  match specTrailingTok (stripQF url.data) with
  | some t => DIRECT_MEDIA_EXT.contains (lowerString t)
  | none => false

/-! ## Small Python helpers -/

/-- Python `a or b` on strings: `a` when non-empty, else `b`
    (`proc.stderr or proc.stdout`). -/
def pyOrStr (a b : String) : String := if a == "" then b else a

/-- Whitespace stripped by Python `str.strip` (ASCII part). -/
def isPySpace (c : Char) : Bool :=
  (c == ' ') || (c == '\t') || (c == '\n') || (c == '\r') ||
  (c == Char.ofNat 11) || (c == Char.ofNat 12)

/-- Python `str.strip()`. -/
def stripPy (s : String) : String :=
  String.mk (((s.data.dropWhile isPySpace).reverse.dropWhile isPySpace).reverse)

/-- Is `needle` a prefix of `hay`? -/
def startsWithL : List Char → List Char → Bool
  | [], _ => true
  | _ :: _, [] => false
  | a :: as, b :: bs => (a == b) && startsWithL as bs

/-- Python `needle in hay` substring test. -/
def containsSub (needle : List Char) : List Char → Bool
  | [] => startsWithL needle []
  | c :: rest => startsWithL needle (c :: rest) || containsSub needle rest

/-- Split a character list at every occurrence of `sep`. -/
def splitOnChar (sep : Char) : List Char → List (List Char)
  | [] => [[]]
  | c :: rest =>
    match splitOnChar sep rest with
    | [] => [[]]
    | g :: gs => if c == sep then [] :: g :: gs else (c :: g) :: gs

/-- `pathlib.PurePath.name` over a POSIX-style path string: the last
    component after dropping empty and `.` components. -/
def pathBasename (s : String) : String :=
  String.mk ((((splitOnChar '/' s.data).filter
    (fun c => !(c.isEmpty) && !(c == ['.']))).getLast?).getD [])

/-- `pathlib.PurePath.suffix` of a file basename: from the last dot to the
    end, provided that dot is neither the first nor the last character. -/
def pathSuffix (name : String) : String :=
  let r := name.data.reverse
  let pre := r.takeWhile (fun c => !(c == '.'))
  if (!(pre.length == 0)) && (pre.length + 1 < name.data.length) then
    String.mk ('.' :: pre.reverse)
  else ""

/-- `input_path.suffix.lower() == ".wav"` (ASCII lower-casing). -/
def suffixIsWav (name : String) : Bool :=
  ((pathSuffix name).data.map toLowerChar) == ".wav".data

/-- The scratch-file basename chosen by the upload handler:
    `Path(file.filename).name or "input"`. -/
def uploadName (fn : String) : String :=
  if pathBasename fn == "" then "input" else pathBasename fn

/-- Python `round` modelled on rationals: round half to even. -/
def qfloor (x : ℚ) : ℤ := Int.fdiv x.num (x.den : ℤ)

def roundHalfEven (x : ℚ) : ℤ :=
  let f := qfloor x
  let r := x - (f : ℚ)
  if r < 1 / 2 then f
  else if 1 / 2 < r then f + 1
  else if f % 2 = 0 then f else f + 1

/-- `round(x, nd)` at the result-formatting boundary. -/
def pyRound (x : ℚ) (nd : Nat) : ℚ :=
  (roundHalfEven (x * (10 : ℚ) ^ nd) : ℚ) / (10 : ℚ) ^ nd

/-! ## External-collaborator outcomes -/

/-- Outcome of the `requests.head` call of `_preflight_head`: either the
    request itself raised (DNS failure, refused connection, timeout), or a
    response with the given final status arrived. -/
inductive HeadOutcome where
  | exc (msg : String)
  | resp (status : Nat)
deriving DecidableEq

/-- Outcome of the streamed `requests.get` of `_http_download`: either some
    step raised (timeout, transport error), or a final response with the
    given status and body chunks arrived. -/
inductive HttpOutcome where
  | exc (msg : String)
  | resp (status : Nat) (chunks : List Bytes)
deriving DecidableEq

/-- Behaviour of the ffmpeg transcoder for this request: whether the binary
    can be spawned at all (`_has_ffmpeg`), and when run for conversion, its
    exit code, captured output, and the bytes it writes to `audio.wav`. -/
structure TranscodeEnv where
  ffmpegPresent : Bool
  returncode : Int
  stderr : String
  stdout : String
  output : Bytes
deriving DecidableEq

/-- Behaviour of the yt-dlp invocation for this request: exit code,
    captured output, and the `audio.<ext>` file it produced, if any. -/
structure YtdlpEnv where
  returncode : Int
  stderr : String
  stdout : String
  producedExt : Option String
  producedContent : Bytes
deriving DecidableEq

/-- Behaviour of librosa on the produced `audio.wav` for this request:
    `load` either raises or yields a waveform with the given sample count;
    `beat_track` either raises or yields a tempo (possibly `None`); the
    onset-strength standard deviation computation either raises or yields a
    value. -/
structure AnalyzeEnv where
  load : Except String Nat
  beat : Except String (Option ℚ)
  onsetStd : Except String ℚ

/-! ## Embedded pipeline functions -/

/-- `_preflight_head` from main.py: error on a raised request or a status
    of at least 400 (with text `f"HTTP {status}"`), advisory success
    otherwise. -/
def preflight_head (o : HeadOutcome) : Except String Unit :=
  match o with
  | .exc m => .error m
  | .resp st => if 400 ≤ st then .error ("HTTP " ++ toString st) else .ok ()

/-- Model of the diagnostic text of the `requests.HTTPError` raised by
    `raise_for_status` (its exact wording is irrelevant to every claim). -/
def raiseForStatusMsg (st : Nat) : String := "HTTP error " ++ toString st

/-- `_http_download` from main.py: `raise_for_status` raises exactly for
    statuses in [400, 600); on success every non-empty streamed chunk is
    appended to the scratch file, i.e. the file holds the whole body. -/
def http_download (o : HttpOutcome) : Except String Bytes :=
  match o with
  | .exc m => .error m
  | .resp st chunks =>
    if 400 ≤ st ∧ st < 600 then .error (raiseForStatusMsg st)
    else .ok chunks.flatten

/-- Result of `_ensure_wav`: the `(ok, err)` pair of main.py, together with
    the bytes now stored at `audio.wav` (if any) and whether the transcoder
    was invoked. -/
structure EnsureWavRes where
  ok : Bool
  err : String
  outContent : Option Bytes
  transcoderInvoked : Bool
deriving DecidableEq

/-- `_ensure_wav` from main.py: a file whose name has suffix `.wav`
    (case-insensitive) is copied verbatim; otherwise ffmpeg is required and
    invoked, failing with its captured output on a non-zero exit. -/
def ensure_wav (inputName : String) (content : Bytes) (env : TranscodeEnv) : EnsureWavRes :=
  if suffixIsWav inputName then
    ⟨true, "", some content, false⟩
  else if env.ffmpegPresent = false then
    ⟨false, E_noffmpeg, none, false⟩
  else if env.returncode ≠ 0 then
    ⟨false, pyOrStr env.stderr env.stdout, none, true⟩
  else
    ⟨true, "", some env.output, true⟩

/-- `_download_with_ytdlp` from main.py: run yt-dlp, locate the produced
    `audio.<ext>` file, and convert it through `_ensure_wav`.  Returns the
    error text or the resulting `audio.wav` bytes, plus whether the
    transcoder was invoked. -/
def download_with_ytdlp (yenv : YtdlpEnv) (tenv : TranscodeEnv) : Except String Bytes × Bool :=
  if yenv.returncode ≠ 0 then (.error (pyOrStr yenv.stderr yenv.stdout), false)
  else
    match yenv.producedExt with
    | none => (.error E_noytfile, false)
    | some ext =>
      let r := ensure_wav ("audio." ++ ext) yenv.producedContent tenv
      if r.ok then (.ok (r.outContent.getD []), r.transcoderInvoked)
      else (.error r.err, r.transcoderInvoked)

/-- The `(bpm, confidence, err)` triple returned by `_analyze_bpm`. -/
structure AnalyzeRes where
  bpm : Option ℚ
  conf : Option ℚ
  err : String
deriving DecidableEq

/-- `_analyze_bpm` from main.py.  The outer `try` turns any raised librosa
    error into `(None, None, str(e))`; an empty waveform yields the
    no-audio text; a missing or non-positive tempo yields the no-tempo
    text; the confidence heuristic is clamped into [0, 1] and computed
    under its own `try`, whose failure merely omits the confidence. -/
def analyze_bpm (env : AnalyzeEnv) : AnalyzeRes :=
  match env.load with
  | .error e => ⟨none, none, e⟩
  | .ok n =>
    if n == 0 then ⟨none, none, E_noaudio⟩
    else
      match env.beat with
      | .error e => ⟨none, none, e⟩
      | .ok none => ⟨none, none, E_tempo⟩
      | .ok (some t) =>
        if t ≤ 0 then ⟨none, none, E_tempo⟩
        else
          match env.onsetStd with
          | .error _ => ⟨some t, none, ""⟩
          | .ok s => ⟨some t, some (min 1 (max 0 (s / (s + 1 / 1000000)))), ""⟩

/-- A response body: either a success JSON `{bpm, confidence?}` or a
    failure JSON `{error, details?}` (the PipelineResult of the spec). -/
inductive Resp where
  | success (bpm : ℚ) (confidence : Option ℚ)
  | failure (error : String) (details : Option String)
deriving DecidableEq

/-- Outcome of the acquisition block of `bpm_from_url` (classify, preflight
    or extractor, download, `_ensure_wav`): an early failure response, or
    the bytes now stored at `audio.wav` plus whether the transcoder ran. -/
inductive AcqOut where
  | fail (e : String) (d : String)
  | ok (outWav : Bytes) (trInvoked : Bool)
deriving DecidableEq

/-- Environment of one `/bpm/url` request. `unexpectedExc`, when set, stands
    for an exception raised inside the handler body that none of the inner
    branches catches (it then propagates through the `finally` cleanup to
    the outer `except Exception`). -/
structure UrlEnv where
  head : HeadOutcome
  http : HttpOutcome
  ytdlp : YtdlpEnv
  tenv : TranscodeEnv
  aenv : AnalyzeEnv
  unexpectedExc : Option String

/-- The acquisition block of `bpm_from_url`, lines 185–200 of main.py.
    Note that the direct download is stored under the extensionless
    basename "input". -/
def urlAcquire (url : String) (env : UrlEnv) : AcqOut :=
  if is_direct_media url then
    match preflight_head env.head with
    | .error e => .fail E_link ("Pré-vérification échouée: " ++ e)
    | .ok _ =>
      match http_download env.http with
      | .error e => .fail E_link ("Téléchargement direct: " ++ e)
      | .ok body =>
        let r := ensure_wav "input" body env.tenv
        if r.ok then .ok (r.outContent.getD []) r.transcoderInvoked
        else if containsSub "FFmpeg".data r.err.data then .fail E_link D_ffmpeg
        else .fail E_tempo r.err
  else
    match download_with_ytdlp env.ytdlp env.tenv with
    | (.error e, _) => .fail E_link e
    | (.ok w, tr) => .ok w tr

/-- What a `/bpm/url` request produced: an HTTPException escaping to the
    framework, or a returned response body. -/
inductive UrlOutcome where
  | httpError (status : Nat) (msg : String)
  | presp (r : Resp)
deriving DecidableEq

/-- Trace of one `/bpm/url` request: its outcome, whether the scratch
    directory was created, and whether it was removed again. -/
structure UrlRun where
  outcome : UrlOutcome
  scratchCreated : Bool
  cleaned : Bool
deriving DecidableEq

/-- `bpm_from_url` from main.py.  The empty-URL HTTPException is raised
    before the scratch directory is created; every path entered after
    `mkdtemp` runs the `finally` cleanup (also the unexpected-exception
    path, which the outer `except` then converts to the link error with
    the raw text as details). -/
def bpm_from_url (urlRaw : String) (env : UrlEnv) : UrlRun :=
  let url := stripPy urlRaw
  if url == "" then ⟨.httpError 400 "URL manquante.", false, false⟩
  else
    match env.unexpectedExc with
    | some m => ⟨.presp (.failure E_link (some m)), true, true⟩
    | none =>
      match urlAcquire url env with
      | .fail e d => ⟨.presp (.failure e (some d)), true, true⟩
      | .ok w _ =>
        if w.length == 0 then ⟨.presp (.failure E_noaudio none), true, true⟩
        else
          let a := analyze_bpm env.aenv
          match a.bpm with
          | none => ⟨.presp (.failure E_tempo (some a.err)), true, true⟩
          | some t => ⟨.presp (.success (pyRound t 2) (a.conf.map (fun q => pyRound q 3))), true, true⟩

/-- Environment of one `/bpm/upload` request. -/
structure UpEnv where
  tenv : TranscodeEnv
  aenv : AnalyzeEnv

/-- Trace of one `/bpm/upload` request. -/
structure UpRun where
  resp : Resp
  scratchCreated : Bool
  cleaned : Bool
deriving DecidableEq

/-- `bpm_from_upload` from main.py.  The scratch directory is created
    first; then `in_path = workdir / (Path(file.filename).name or "input")`
    is computed before the `try/finally` is entered.  The `none` branch
    models how the function body itself would react to
    `file.filename is None` (the `Path(None)` TypeError reaches the outer
    `except Exception` without running the cleanup); it is unreachable
    from an HTTP request, because Starlette only builds an `UploadFile`
    when a filename string is present (a filename-less multipart part
    arrives as a plain form field, which FastAPI rejects with 422 before
    the handler runs), and an empty filename falls back to the basename
    "input" without raising.  Every request therefore takes the `some`
    branch, whose paths all run the `finally` cleanup. -/
def bpm_from_upload (filename : Option String) (content : Bytes) (env : UpEnv) : UpRun :=
  match filename with
  | none => ⟨.failure E_file (some pathTypeErrorMsg), true, false⟩
  | some fn =>
    if content.length == 0 then ⟨.failure E_noaudio none, true, true⟩
    else
      let r := ensure_wav (uploadName fn) content env.tenv
      if r.ok then
        let a := analyze_bpm env.aenv
        match a.bpm with
        | none => ⟨.failure E_tempo (some a.err), true, true⟩
        | some t => ⟨.success (pyRound t 2) (a.conf.map (fun q => pyRound q 3)), true, true⟩
      else if containsSub "FFmpeg".data r.err.data then ⟨.failure E_file (some D_ffmpeg), true, true⟩
      else ⟨.failure E_tempo (some r.err), true, true⟩

/-- The four fixed user-facing error strings of the orchestrator (§4.6). -/
def fixedErrors : List String := [E_link, E_noaudio, E_tempo, E_file]

/-! ## Concrete environments used by witnesses and counterexamples -/

def tenvOK : TranscodeEnv := ⟨true, 0, "", "", [9, 9]⟩

def tenvAbsent : TranscodeEnv := ⟨false, 0, "", "", []⟩

def tenvFailFF : TranscodeEnv := ⟨true, 1, "FFmpeg could not open input", "", []⟩

def ytAny : YtdlpEnv := ⟨0, "", "", some "m4a", [1]⟩

def aenvOK : AnalyzeEnv := ⟨.ok 1000, .ok (some 123), .ok 2⟩

def aenvZeroSamples : AnalyzeEnv := ⟨.ok 0, .ok none, .error "boom"⟩

def urlEnvPreFail : UrlEnv :=
  ⟨.exc "refused", .resp 200 [[1]], ytAny, tenvOK, aenvOK, none⟩

def urlEnvWavDirect : UrlEnv :=
  ⟨.resp 200, .resp 200 [[1, 2, 3]], ytAny, tenvOK, aenvOK, none⟩

def urlEnvFFfail : UrlEnv :=
  ⟨.resp 200, .resp 200 [[1]], ytAny, tenvFailFF, aenvOK, none⟩

def urlEnvYtAbsent : UrlEnv :=
  ⟨.resp 200, .resp 200 [[1]], ytAny, tenvAbsent, aenvOK, none⟩

def urlEnvHappy : UrlEnv :=
  ⟨.resp 200, .resp 200 [[1, 2, 3]], ytAny, tenvOK, aenvOK, none⟩

def upEnvZeroSamples : UpEnv := ⟨tenvOK, aenvZeroSamples⟩

def upEnvAny : UpEnv := ⟨tenvOK, aenvOK⟩

def upEnvAbsent : UpEnv := ⟨tenvAbsent, aenvOK⟩

def tenvOKEmpty : TranscodeEnv := ⟨true, 0, "", "", []⟩

def urlEnvEmptyWav : UrlEnv :=
  ⟨.resp 200, .resp 200 [], ytAny, tenvOKEmpty, aenvOK, none⟩

def urlEnvDirAbsent : UrlEnv :=
  ⟨.resp 200, .resp 200 [[1]], ytAny, tenvAbsent, aenvOK, none⟩

/-! ## Helper lemmas for the classifier proofs -/

lemma isWordChar_not_term {r : Char} (h : (r == '?') || (r == '#')) : isWordChar r = false := by
  rcases Bool.or_eq_true_iff.mp h with h | h
  · rw [eq_of_beq h]; decide
  · rw [eq_of_beq h]; decide

lemma isWordChar_dot : isWordChar '.' = false := by decide

lemma notQF_not_term {c : Char} (h : notQF c = true) : ((c == '?') || (c == '#')) = false := by
  unfold notQF at h
  simpa using h

lemma checkTok_append_false (pre X : List Char) (k : Nat)
    (hpre : ∀ c ∈ pre, notQF c = true) :
    checkTok (pre ++ '.' :: X) k = false := by
  by_cases h : k ≤ pre.length
  · have hdrop : (pre ++ '.' :: X).drop k = pre.drop k ++ '.' :: X := by
      rw [List.drop_append_eq_append_drop, Nat.sub_eq_zero_of_le h, List.drop_zero]
    have hterm : isTermL ((pre ++ '.' :: X).drop k) = false := by
      rw [hdrop]
      cases hd : pre.drop k with
      | nil => simp [isTermL]
      | cons d ds =>
        have hdmem : d ∈ pre := List.mem_of_mem_drop (hd ▸ List.mem_cons_self d ds)
        rw [List.cons_append]
        show ((d == '?') || (d == '#')) = false
        exact notQF_not_term (hpre d hdmem)
    unfold checkTok
    rw [hterm]
    simp
  · have hlt : pre.length < k := Nat.lt_of_not_le h
    have htake : (pre ++ '.' :: X).take k = pre ++ ('.' :: X).take (k - pre.length) := by
      rw [List.take_append_eq_append_take, List.take_of_length_le (le_of_lt hlt)]
    have hdotmem : '.' ∈ (pre ++ '.' :: X).take k := by
      rw [htake]
      refine List.mem_append_right _ ?_
      obtain ⟨m, hm⟩ : ∃ m, k - pre.length = m + 1 := ⟨k - pre.length - 1, by omega⟩
      rw [hm, List.take_succ_cons]
      exact List.mem_cons_self '.' _
    have hall : ((pre ++ '.' :: X).take k).all isWordChar = false := by
      apply Bool.eq_false_iff.mpr
      intro hc
      have := List.all_eq_true.mp hc '.' hdotmem
      simp [isWordChar_dot] at this
    unfold checkTok
    rw [hall]
    simp

lemma matchExtAt_append_none (c : Char) (pre X : List Char)
    (hpre : ∀ a ∈ pre, notQF a = true) :
    matchExtAt (c :: (pre ++ '.' :: X)) = none := by
  by_cases hc : c = '.'
  · subst hc
    simp [matchExtAt, checkTok_append_false pre X 4 hpre,
      checkTok_append_false pre X 3 hpre,
      checkTok_append_false pre X 2 hpre]
  · simp [matchExtAt, hc]

lemma checkTok_self (tok rest' : List Char) (htok : tok.all isWordChar = true)
    (hterm : isTermL rest' = true) :
    checkTok (tok ++ rest') tok.length = true := by
  unfold checkTok
  rw [List.take_left, List.drop_left]
  simp [htok, hterm]

lemma checkTok_gt (tok rest' : List Char) (k : Nat) (hk : tok.length < k)
    (hterm : isTermL rest' = true) :
    checkTok (tok ++ rest') k = false := by
  cases rest' with
  | nil =>
    unfold checkTok
    rw [List.append_nil, List.take_of_length_le (le_of_lt hk)]
    have hne : (tok.length == k) = false := by
      simp
      omega
    simp [hne]
  | cons r rs =>
    have hr : isWordChar r = false := isWordChar_not_term hterm
    have htake : (tok ++ r :: rs).take k = tok ++ (r :: rs).take (k - tok.length) := by
      rw [List.take_append_eq_append_take, List.take_of_length_le (le_of_lt hk)]
    have hmem : r ∈ (tok ++ r :: rs).take k := by
      rw [htake]
      refine List.mem_append_right _ ?_
      obtain ⟨m, hm⟩ : ∃ m, k - tok.length = m + 1 := ⟨k - tok.length - 1, by omega⟩
      rw [hm, List.take_succ_cons]
      exact List.mem_cons_self r _
    have hall : ((tok ++ r :: rs).take k).all isWordChar = false := by
      apply Bool.eq_false_iff.mpr
      intro hc
      have := List.all_eq_true.mp hc r hmem
      rw [hr] at this
      cases this
    unfold checkTok
    rw [hall]
    simp

lemma matchExtAt_tok (tok rest' : List Char) (htok : tok.all isWordChar = true)
    (h2 : 2 ≤ tok.length) (h4 : tok.length ≤ 4) (hterm : isTermL rest' = true) :
    matchExtAt ('.' :: (tok ++ rest')) = some ('.' :: tok) := by
  have hL : tok.length = 2 ∨ tok.length = 3 ∨ tok.length = 4 := by omega
  have hself := checkTok_self tok rest' htok hterm
  have htake : (tok ++ rest').take tok.length = tok := List.take_left tok rest'
  rcases hL with hL | hL | hL
  · have c4 : checkTok (tok ++ rest') 4 = false := checkTok_gt tok rest' 4 (by omega) hterm
    have c3 : checkTok (tok ++ rest') 3 = false := checkTok_gt tok rest' 3 (by omega) hterm
    rw [hL] at hself htake
    simp [matchExtAt, c4, c3, hself, htake]
  · have c4 : checkTok (tok ++ rest') 4 = false := checkTok_gt tok rest' 4 (by omega) hterm
    rw [hL] at hself htake
    simp [matchExtAt, c4, hself, htake]
  · rw [hL] at hself htake
    simp [matchExtAt, hself, htake]

lemma isTermL_dropWhile (l : List Char) : isTermL (l.dropWhile notQF) = true := by
  induction l with
  | nil => rfl
  | cons c cs ih =>
    rw [List.dropWhile_cons]
    by_cases h : notQF c = true
    · rw [if_pos h]
      exact ih
    · rw [if_neg h]
      show ((c == '?') || (c == '#')) = true
      cases ht : ((c == '?') || (c == '#')) with
      | false => exact absurd (by unfold notQF; rw [ht]; rfl) h
      | true => rfl

lemma searchExt_append (pre tok rest' : List Char)
    (hpre : ∀ a ∈ pre, notQF a = true)
    (htok : tok.all isWordChar = true) (h2 : 2 ≤ tok.length) (h4 : tok.length ≤ 4)
    (hterm : isTermL rest' = true) :
    searchExt (pre ++ '.' :: (tok ++ rest')) = some ('.' :: tok) := by
  induction pre with
  | nil =>
    rw [List.nil_append]
    have hm := matchExtAt_tok tok rest' htok h2 h4 hterm
    simp [searchExt, hm]
  | cons c pre' ih =>
    have hpre' : ∀ a ∈ pre', notQF a = true := fun a ha => hpre a (List.mem_cons_of_mem c ha)
    have hm : matchExtAt (c :: (pre' ++ '.' :: (tok ++ rest'))) = none :=
      matchExtAt_append_none c pre' (tok ++ rest') hpre'
    rw [List.cons_append]
    rw [searchExt, hm]
    exact ih hpre'

/-- C3 (amended): whenever the part of the URL before the first query or
    fragment delimiter really ends in a file-extension-like token (a dot
    followed by 2–4 word characters), `_is_direct_media` agrees with the
    trailing-token rule of the spec: it classifies as DirectMedia exactly
    when that token, lower-cased, is in `DIRECT_MEDIA_EXT`.  (Outside this
    case the leftmost-match semantics of `re.search` can differ from the
    spec wording; see the counterexample.) -/
theorem C3_trailing_token_agreement (url : String) (pre tok : List Char)
    (hsplit : stripQF url.data = pre ++ '.' :: tok)
    (htok : tok.all isWordChar = true)
    (h2 : 2 ≤ tok.length) (h4 : tok.length ≤ 4) :
    is_direct_media url = DIRECT_MEDIA_EXT.contains (lowerString ('.' :: tok)) := by
  have hsplit' : url.data.takeWhile notQF = pre ++ '.' :: tok := hsplit
  have hterm : isTermL (url.data.dropWhile notQF) = true := isTermL_dropWhile _
  have hpre : ∀ a ∈ pre, notQF a = true := by
    intro a ha
    refine List.mem_takeWhile_imp (l := url.data) (p := notQF) ?_
    rw [hsplit']
    exact List.mem_append_left _ ha
  have hdecomp : url.data = pre ++ '.' :: (tok ++ url.data.dropWhile notQF) := by
    conv_lhs => rw [← List.takeWhile_append_dropWhile (p := notQF) (l := url.data)]
    rw [hsplit']
    simp
  unfold is_direct_media
  rw [hdecomp, searchExt_append pre tok _ hpre htok h2 h4 hterm]

/-- Witness for C3: the spec's own example URL, which has trailing token
    `.mp4` before its query string, is classified DirectMedia. -/
theorem C3_trailing_token_agreement_witness :
    is_direct_media "https://cdn.example.com/clip.mp4?sig=abc" =
      DIRECT_MEDIA_EXT.contains (lowerString ('.' :: ['m', 'p', '4'])) :=
  C3_trailing_token_agreement "https://cdn.example.com/clip.mp4?sig=abc"
    ("https://cdn.example.com/clip".data) ['m', 'p', '4']
    (by decide) (by decide) (by decide) (by decide)

/-- Counterexample for C3 as stated: for
    `https://a.com/play?file=song.mp3` the part before the query string is
    `https://a.com/play`, which has no trailing extension token, so the
    spec rule classifies NeedsExtraction — but `re.search` finds `.mp3`
    inside the query string (it is followed by end-of-string) and the code
    classifies DirectMedia. -/
theorem C3_counterexample :
    is_direct_media "https://a.com/play?file=song.mp3" = true ∧
    classify_spec "https://a.com/play?file=song.mp3" = false ∧
    stripQF "https://a.com/play?file=song.mp3".data = "https://a.com/play".data := by
  refine ⟨by decide, by decide, by decide⟩

/-- C6 (amended): `_http_download` fails exactly when the request raises
    (timeout or transport error) or the final response status is in
    [400, 600) — that is `raise_for_status`, not "non-2xx"; on any other
    status it succeeds and the whole streamed body is written to the
    scratch file. -/
theorem C6_fetch_failure_condition :
    (∀ m, http_download (HttpOutcome.exc m) = Except.error m) ∧
    (∀ st chunks, 400 ≤ st ∧ st < 600 →
        http_download (HttpOutcome.resp st chunks) = Except.error (raiseForStatusMsg st)) ∧
    (∀ st chunks, ¬(400 ≤ st ∧ st < 600) →
        http_download (HttpOutcome.resp st chunks) = Except.ok chunks.flatten) := by
  refine ⟨fun m => rfl, fun st chunks h => ?_, fun st chunks h => ?_⟩
  · simp [http_download, h]
  · simp [http_download, h]

/-- Witness for C6: a 404 response fails, a 200 response succeeds with the
    body written out. -/
theorem C6_fetch_failure_condition_witness :
    (400 ≤ 404 ∧ 404 < 600) ∧
    http_download (HttpOutcome.resp 404 [[1]]) = Except.error (raiseForStatusMsg 404) ∧
    http_download (HttpOutcome.resp 200 [[1], [2, 3]]) = Except.ok [1, 2, 3] :=
  ⟨by decide, C6_fetch_failure_condition.2.1 404 [[1]] (by decide),
    C6_fetch_failure_condition.2.2 200 [[1], [2, 3]] (by decide)⟩

/-- Counterexample for C6 as stated: a final status of 304 is not 2xx, yet
    `raise_for_status` does not raise for it, so the download step
    succeeds instead of failing with a FetchError. -/
theorem C6_counterexample :
    http_download (HttpOutcome.resp 304 []) = Except.ok [] ∧
    ¬(200 ≤ 304 ∧ 304 < 300) := by
  refine ⟨rfl, by decide⟩

/-- C7: the confidence of `_analyze_bpm` is always absent or clamped into
    [0, 1]; a failure of the onset-strength computation only omits the
    confidence; and neither the reported tempo nor the error text depends
    on the onset-strength outcome, so a confidence error can never turn
    into a pipeline failure. -/
theorem C7_confidence_clamped_and_nonfatal :
    (∀ env c, (analyze_bpm env).conf = some c → 0 ≤ c ∧ c ≤ 1) ∧
    (∀ env m, env.onsetStd = Except.error m → (analyze_bpm env).conf = none) ∧
    (∀ (ld : Except String Nat) (bt : Except String (Option ℚ)) (s1 s2 : Except String ℚ),
        (analyze_bpm ⟨ld, bt, s1⟩).bpm = (analyze_bpm ⟨ld, bt, s2⟩).bpm ∧
        (analyze_bpm ⟨ld, bt, s1⟩).err = (analyze_bpm ⟨ld, bt, s2⟩).err) := by
  refine ⟨?_, ?_, ?_⟩
  · intro env c h
    unfold analyze_bpm at h
    split at h
    · simp at h
    · split at h
      · simp at h
      · split at h
        · simp at h
        · simp at h
        · split at h
          · simp at h
          · split at h
            · simp at h
            · dsimp only at h
              rw [Option.some_inj] at h
              subst h
              constructor
              · exact le_min (by norm_num) (le_max_left 0 _)
              · exact min_le_left 1 _
  · intro env m h
    unfold analyze_bpm
    rw [h]
    split
    · rfl
    · split
      · rfl
      · split
        · rfl
        · rfl
        · split
          · rfl
          · rfl
  · intro ld bt s1 s2
    rcases ld with e | n
    · exact ⟨rfl, rfl⟩
    · by_cases hn : n = 0
      · subst hn
        exact ⟨rfl, rfl⟩
      · have hn2 : (n == 0) = false := by simpa using hn
        rcases bt with e | ot
        · simp [analyze_bpm, hn2]
        · rcases ot with _ | t
          · simp [analyze_bpm, hn2]
          · by_cases ht : t ≤ 0
            · simp [analyze_bpm, hn2, ht]
            · rcases s1 with m1 | v1 <;> rcases s2 with m2 | v2 <;>
                simp [analyze_bpm, hn2, ht]

/-- Witness for C7: a concrete analysis whose confidence is the clamped
    onset-strength ratio, shown in range by the theorem. -/
theorem C7_confidence_clamped_and_nonfatal_witness :
    (analyze_bpm aenvOK).conf = some (min 1 (max 0 ((2 : ℚ) / (2 + 1 / 1000000)))) ∧
    (0 : ℚ) ≤ min 1 (max 0 ((2 : ℚ) / (2 + 1 / 1000000))) ∧
    min 1 (max 0 ((2 : ℚ) / (2 + 1 / 1000000))) ≤ 1 := by
  have h : (analyze_bpm aenvOK).conf = some (min 1 (max 0 ((2 : ℚ) / (2 + 1 / 1000000)))) := rfl
  have hb := C7_confidence_clamped_and_nonfatal.1 aenvOK _ h
  exact ⟨h, hb.1, hb.2⟩

lemma urlAcquire_fail_mem (u : String) (env : UrlEnv) (e d : String)
    (h : urlAcquire u env = AcqOut.fail e d) : e = E_link ∨ e = E_tempo := by
  unfold urlAcquire at h
  split at h
  · split at h
    · cases h
      exact Or.inl rfl
    · split at h
      · cases h
        exact Or.inl rfl
      · dsimp only at h
        split at h
        · simp at h
        · split at h
          · cases h
            exact Or.inl rfl
          · cases h
            exact Or.inr rfl
  · split at h
    · cases h
      exact Or.inl rfl
    · simp at h

/-- C1: every failure response of either handler carries one of the four
    fixed user-facing error strings (link/file extraction, no audio, no
    clear tempo) as its top-level `error`; the raw diagnostic texts coming
    from the environment can only ever appear in the `details` field. -/
theorem C1_fixed_error_strings :
    (∀ (u : String) (env : UrlEnv) (e : String) (d : Option String),
        (bpm_from_url u env).outcome = UrlOutcome.presp (Resp.failure e d) →
        e ∈ fixedErrors) ∧
    (∀ (fn : Option String) (c : Bytes) (env : UpEnv) (e : String) (d : Option String),
        (bpm_from_upload fn c env).resp = Resp.failure e d →
        e ∈ fixedErrors) := by
  constructor
  · intro u env e d h
    simp only [bpm_from_url] at h
    split at h
    · simp at h
    · split at h
      · simp at h
        rcases h with ⟨rfl, rfl⟩
        simp [fixedErrors]
      · split at h
        next ea da heq =>
          simp at h
          rcases h with ⟨rfl, rfl⟩
          rcases urlAcquire_fail_mem _ _ _ _ heq with rfl | rfl <;> simp [fixedErrors]
        next w tr heq =>
          split at h
          · simp at h
            rcases h with ⟨rfl, rfl⟩
            simp [fixedErrors]
          · split at h
            · simp at h
              rcases h with ⟨rfl, rfl⟩
              simp [fixedErrors]
            · simp at h
  · intro fn c env e d h
    simp only [bpm_from_upload] at h
    split at h
    · simp at h
      rcases h with ⟨rfl, rfl⟩
      simp [fixedErrors]
    · split at h
      · simp at h
        rcases h with ⟨rfl, rfl⟩
        simp [fixedErrors]
      · dsimp only at h
        split at h
        · split at h
          · simp at h
            rcases h with ⟨rfl, rfl⟩
            simp [fixedErrors]
          · simp at h
        · split at h
          · simp at h
            rcases h with ⟨rfl, rfl⟩
            simp [fixedErrors]
          · simp at h
            rcases h with ⟨rfl, rfl⟩
            simp [fixedErrors]

/-- Witness for C1: a preflight failure yields the fixed link error with
    the raw diagnostic only in the details field. -/
theorem C1_fixed_error_strings_witness :
    (bpm_from_url "http://a.com/x.mp3" urlEnvPreFail).outcome =
      UrlOutcome.presp (Resp.failure E_link (some "Pré-vérification échouée: refused")) ∧
    E_link ∈ fixedErrors :=
  ⟨rfl, C1_fixed_error_strings.1 "http://a.com/x.mp3" urlEnvPreFail E_link
      (some "Pré-vérification échouée: refused") rfl⟩

/-- C2 (amended): a missing or zero-byte audio file yields the no-audio
    error: on the URL path when the produced `audio.wav` is empty, on the
    upload path when the uploaded file itself is empty.  (A non-empty file
    whose decoded waveform has zero samples instead yields the
    no-clear-tempo error; see the counterexample.) -/
theorem C2_empty_file_no_audio :
    (∀ (u : String) (env : UrlEnv) (tr : Bool), env.unexpectedExc = none →
        (stripPy u == "") = false →
        urlAcquire (stripPy u) env = AcqOut.ok [] tr →
        (bpm_from_url u env).outcome = UrlOutcome.presp (Resp.failure E_noaudio none)) ∧
    (∀ (fn : String) (env : UpEnv),
        (bpm_from_upload (some fn) [] env).resp = Resp.failure E_noaudio none) := by
  constructor
  · intro u env tr hexc hne hacq
    simp [bpm_from_url, hexc, hne, hacq]
  · intro fn env
    rfl

/-- Witness for C2: a direct fetch whose conversion produces a zero-byte
    `audio.wav` is answered with the no-audio error. -/
theorem C2_empty_file_no_audio_witness :
    urlAcquire (stripPy "http://a.com/x.mp3") urlEnvEmptyWav = AcqOut.ok [] true ∧
    (bpm_from_url "http://a.com/x.mp3" urlEnvEmptyWav).outcome =
      UrlOutcome.presp (Resp.failure E_noaudio none) :=
  ⟨rfl, C2_empty_file_no_audio.1 "http://a.com/x.mp3" urlEnvEmptyWav true rfl rfl rfl⟩

/-- Counterexample for C2 as stated: an uploaded non-empty file whose
    decoded waveform has zero samples (librosa returns an empty signal) is
    answered with the no-clear-tempo error; the no-audio text only appears
    demoted into the details field. -/
theorem C2_counterexample :
    upEnvZeroSamples.aenv.load = Except.ok 0 ∧
    (bpm_from_upload (some "x.wav") [1, 2, 3] upEnvZeroSamples).resp =
      Resp.failure E_tempo (some E_noaudio) ∧
    E_tempo ≠ E_noaudio := by
  refine ⟨rfl, rfl, by decide⟩

lemma ensure_wav_not_wav_cases (name : String) (c : Bytes) (tenv : TranscodeEnv)
    (h : suffixIsWav name = false) :
    ensure_wav name c tenv = ⟨false, E_noffmpeg, none, false⟩ ∨
    ensure_wav name c tenv = ⟨false, pyOrStr tenv.stderr tenv.stdout, none, true⟩ ∨
    ensure_wav name c tenv = ⟨true, "", some tenv.output, true⟩ := by
  unfold ensure_wav
  rw [if_neg (by simp [h])]
  by_cases hp : tenv.ffmpegPresent = false
  · rw [if_pos hp]
    exact Or.inl rfl
  · rw [if_neg hp]
    by_cases hr : tenv.returncode ≠ 0
    · rw [if_pos hr]
      exact Or.inr (Or.inl rfl)
    · rw [if_neg hr]
      exact Or.inr (Or.inr rfl)

/-- C4 (amended): `_ensure_wav` copies its input verbatim — bit-exact, no
    transcoder invocation — exactly when the input file NAME has the
    suffix `.wav` (case-insensitive); and on the Direct-HTTP-Fetch path
    the download is stored under the extensionless name "input", so any
    direct fetch that reaches a successful normalization has necessarily
    gone through the transcoder, never through the verbatim copy. -/
theorem C4_wav_copy_by_suffix_only :
    (∀ (name : String) (c : Bytes) (tenv : TranscodeEnv),
        suffixIsWav name = true →
        ensure_wav name c tenv = ⟨true, "", some c, false⟩) ∧
    (∀ (url : String) (env : UrlEnv) (w : Bytes) (b : Bool),
        is_direct_media url = true →
        urlAcquire url env = AcqOut.ok w b → b = true) := by
  constructor
  · intro name c tenv h
    unfold ensure_wav
    rw [if_pos h]
  · intro url env w b hdir hacq
    unfold urlAcquire at hacq
    rw [if_pos hdir] at hacq
    split at hacq
    · simp at hacq
    · split at hacq
      · simp at hacq
      · dsimp only at hacq
        rename_i body heq
        have hsuf : suffixIsWav "input" = false := by decide
        rcases ensure_wav_not_wav_cases "input" body env.tenv hsuf with he | he | he <;>
          rw [he] at hacq
        · split at hacq
          · simp_all
          · split at hacq <;> simp_all
        · split at hacq
          · simp_all
          · split at hacq <;> simp_all
        · simp at hacq
          exact hacq.2

/-- Counterexample for C4 as stated: a directly-fetched file whose URL ends
    in `.wav` — so its bytes may well be a canonical PCM wave — is stored
    under the extensionless name "input"; the normalizer therefore invokes
    the transcoder (flag `true`) and the analyzed bytes are the transcoder
    output `[9, 9]`, not the fetched bytes `[1, 2, 3]`: no verbatim copy
    happens on the Direct-HTTP-Fetch path. -/
theorem C4_counterexample :
    is_direct_media "http://a.com/song.wav" = true ∧
    urlAcquire "http://a.com/song.wav" urlEnvWavDirect = AcqOut.ok [9, 9] true ∧
    ([9, 9] : Bytes) ≠ [1, 2, 3] := by
  refine ⟨rfl, rfl, by decide⟩

/-- Witness for C4: an input named with a `.wav` suffix is copied verbatim
    with no transcoder call, even when no transcoder is installed. -/
theorem C4_wav_copy_by_suffix_only_witness :
    ensure_wav "song.wav" [5] tenvAbsent = ⟨true, "", some [5], false⟩ ∧
    true = true :=
  ⟨C4_wav_copy_by_suffix_only.1 "song.wav" [5] tenvAbsent (by decide),
    C4_wav_copy_by_suffix_only.2 "http://a.com/song.wav" urlEnvWavDirect [9, 9] true rfl rfl⟩

/-- C5 (amended): when conversion is needed and the transcoder is absent,
    the direct-URL path fails with the link error and detail
    "FFmpeg requis pour conversion.", and the upload path with the file
    error and the same detail.  (The mapping is an "FFmpeg"-substring test
    on the failure text, so it is not exclusive to the absent-transcoder
    case; see the counterexample.) -/
theorem C5_transcoder_absent_fixed_detail :
    (∀ (u : String) (env : UrlEnv) (b : Bytes), env.unexpectedExc = none →
        (stripPy u == "") = false →
        is_direct_media (stripPy u) = true →
        preflight_head env.head = Except.ok () →
        http_download env.http = Except.ok b →
        env.tenv.ffmpegPresent = false →
        (bpm_from_url u env).outcome =
          UrlOutcome.presp (Resp.failure E_link (some D_ffmpeg))) ∧
    (∀ (fn : String) (c : Bytes) (env : UpEnv),
        (c.length == 0) = false →
        suffixIsWav (uploadName fn) = false →
        env.tenv.ffmpegPresent = false →
        (bpm_from_upload (some fn) c env).resp = Resp.failure E_file (some D_ffmpeg)) := by
  have hcontains : containsSub "FFmpeg".data E_noffmpeg.data = true := by decide
  have hsufinput : suffixIsWav "input" = false := by decide
  constructor
  · intro u env b hexc hne hdir hhead hhttp habs
    have he : ensure_wav "input" b env.tenv = ⟨false, E_noffmpeg, none, false⟩ := by
      unfold ensure_wav
      rw [if_neg (by simp [hsufinput]), if_pos habs]
    have hacq : urlAcquire (stripPy u) env = AcqOut.fail E_link D_ffmpeg := by
      unfold urlAcquire
      rw [if_pos hdir, hhead, hhttp]
      dsimp only
      rw [he]
      simp [hcontains]
    simp [bpm_from_url, hexc, hne, hacq]
  · intro fn c env hlen hsuf habs
    have he : ensure_wav (uploadName fn) c env.tenv = ⟨false, E_noffmpeg, none, false⟩ := by
      unfold ensure_wav
      rw [if_neg (by simp [hsuf]), if_pos habs]
    simp [bpm_from_upload, hlen, he, hcontains]

/-- Witness for C5: an absent transcoder on a direct media URL produces
    the link error with the fixed conversion detail. -/
theorem C5_transcoder_absent_fixed_detail_witness :
    (bpm_from_url "http://a.com/x.mp3" urlEnvDirAbsent).outcome =
      UrlOutcome.presp (Resp.failure E_link (some D_ffmpeg)) :=
  C5_transcoder_absent_fixed_detail.1 "http://a.com/x.mp3" urlEnvDirAbsent [1]
    rfl rfl rfl rfl rfl rfl

/-- Counterexample for C5 as stated: (a) a transcoder that is present but
    exits non-zero with FFmpeg-mentioning output is mapped to the very
    same fixed detail, and (b) on the extractor-delegated path an absent
    transcoder yields the raw text "FFmpeg non installé." as detail, not
    the fixed conversion detail. -/
theorem C5_counterexample :
    tenvFailFF.ffmpegPresent = true ∧
    tenvFailFF.returncode ≠ 0 ∧
    (bpm_from_url "http://a.com/x.mp3" urlEnvFFfail).outcome =
      UrlOutcome.presp (Resp.failure E_link (some D_ffmpeg)) ∧
    (bpm_from_url "http://a.com/page" urlEnvYtAbsent).outcome =
      UrlOutcome.presp (Resp.failure E_link (some E_noffmpeg)) ∧
    E_noffmpeg ≠ D_ffmpeg := by
  refine ⟨rfl, by decide, rfl, rfl, by decide⟩

/-- C9: the estimator returns the raw (unrounded) tempo it computed, and
    each handler applies the rounding only at the result-formatting
    boundary: the success body carries `round(bpm, 2)` of the raw tempo
    and `round(confidence, 3)` of the raw confidence. -/
theorem C9_rounding_at_boundary :
    (∀ (env : AnalyzeEnv) (n : Nat) (t : ℚ), env.load = Except.ok n → (n == 0) = false →
        env.beat = Except.ok (some t) → ¬(t ≤ 0) →
        (analyze_bpm env).bpm = some t) ∧
    (∀ (u : String) (env : UrlEnv) (w : Bytes) (b : Bool) (t : ℚ),
        env.unexpectedExc = none → (stripPy u == "") = false →
        urlAcquire (stripPy u) env = AcqOut.ok w b → (w.length == 0) = false →
        (analyze_bpm env.aenv).bpm = some t →
        (bpm_from_url u env).outcome =
          UrlOutcome.presp (Resp.success (pyRound t 2)
            ((analyze_bpm env.aenv).conf.map (fun q => pyRound q 3)))) ∧
    (∀ (fn : String) (c : Bytes) (env : UpEnv) (t : ℚ),
        (c.length == 0) = false →
        (ensure_wav (uploadName fn) c env.tenv).ok = true →
        (analyze_bpm env.aenv).bpm = some t →
        (bpm_from_upload (some fn) c env).resp =
          Resp.success (pyRound t 2)
            ((analyze_bpm env.aenv).conf.map (fun q => pyRound q 3))) := by
  refine ⟨?_, ?_, ?_⟩
  · intro env n t hl hn hb ht
    unfold analyze_bpm
    rw [hl, hb]
    simp only [hn, Bool.false_eq_true, if_false]
    rw [if_neg ht]
    split <;> rfl
  · intro u env w b t hexc hne hacq hw hbpm
    simp [bpm_from_url, hexc, hne, hacq, hw, hbpm]
  · intro fn c env t hlen hok hbpm
    simp [bpm_from_upload, hlen, hok, hbpm]

/-- Witness for C9: an uploaded `.wav` analysed at raw tempo 123 returns
    the formatted success body. -/
theorem C9_rounding_at_boundary_witness :
    (analyze_bpm aenvOK).bpm = some 123 ∧
    (bpm_from_upload (some "x.wav") [1, 2] upEnvAny).resp =
      Resp.success (pyRound 123 2)
        ((analyze_bpm aenvOK).conf.map (fun q => pyRound q 3)) :=
  ⟨C9_rounding_at_boundary.1 aenvOK 1000 123 rfl rfl rfl (by norm_num),
    C9_rounding_at_boundary.2.2 "x.wav" [1, 2] upEnvAny 123 rfl rfl rfl⟩

/-- C10: a URL that is empty after stripping whitespace makes the URL
    handler raise HTTPException 400 with message "URL manquante." before
    the scratch directory is created and before any pipeline stage runs;
    no PipelineResult body is returned. -/
theorem C10_empty_url_http_400 :
    ∀ (u : String) (env : UrlEnv), (stripPy u == "") = true →
      bpm_from_url u env = ⟨UrlOutcome.httpError 400 "URL manquante.", false, false⟩ := by
  intro u env h
  simp [bpm_from_url, h]

/-- Witness for C10: a whitespace-only URL. -/
theorem C10_empty_url_http_400_witness :
    bpm_from_url "   " urlEnvHappy = ⟨UrlOutcome.httpError 400 "URL manquante.", false, false⟩ :=
  C10_empty_url_http_400 "   " urlEnvHappy rfl

/-- C8: every reachable request releases its scratch directory.  On the
    URL handler, every run that creates the scratch directory also
    removes it (the only run that does not remove it is the empty-URL
    HTTPException, which never creates it).  On the upload handler, every
    request carries a filename string (see `bpm_from_upload`), and every
    path of that branch — zero-byte upload, normalization failure of
    either kind, analysis failure, success — runs the `finally` cleanup
    after creating the scratch directory. -/
theorem C8_scratch_cleanup :
    (∀ (u : String) (env : UrlEnv),
        (bpm_from_url u env).scratchCreated = false ∨ (bpm_from_url u env).cleaned = true) ∧
    (∀ (fn : String) (c : Bytes) (env : UpEnv),
        (bpm_from_upload (some fn) c env).scratchCreated = true ∧
        (bpm_from_upload (some fn) c env).cleaned = true) := by
  constructor
  · intro u env
    simp only [bpm_from_url]
    split
    · exact Or.inl rfl
    · split
      · exact Or.inr rfl
      · split
        · exact Or.inr rfl
        · split
          · exact Or.inr rfl
          · split <;> exact Or.inr rfl
  · intro fn c env
    simp only [bpm_from_upload]
    split
    · exact ⟨rfl, rfl⟩
    · split
      · split
        · exact ⟨rfl, rfl⟩
        · exact ⟨rfl, rfl⟩
      · split
        · exact ⟨rfl, rfl⟩
        · exact ⟨rfl, rfl⟩
